import Mathlib

/-!
Verification of the pomodoro timer repository (src/time_utils.h, src/main.cc,
src/state.h, src/state.cc).

Shallow embedding conventions:
* C++ `double`/`float` values are modelled as `ℚ` (exact arithmetic).
* Clock reads (`Clock::now()`) become explicit `ℚ` parameters: `now` for the
  monotonic `steady_clock`, `nowEpoch` for the wall `system_clock` (seconds
  since the epoch).
* The protobuf messages (`Done`, `StateProto`) come from a generated
  `state.pb.h`; their field layout is reconstructed here from every use in
  the sources, with proto3 scalar defaults (empty string, zero).
* Methods that mutate state become functions returning the new state; methods
  that also produce a value return a pair.
-/

/-- C++ `std::lround`: round to nearest, halves away from zero. -/
def lround (q : ℚ) : ℤ :=
  if 0 ≤ q then ⌊q + 1 / 2⌋ else -⌊-q + 1 / 2⌋

/-- C++ float-to-integer conversion: truncation toward zero. -/
def cxxTrunc (q : ℚ) : ℤ :=
  if 0 ≤ q then ⌊q⌋ else ⌈q⌉

/-- Two-digit decimal padding as done by `std::put_time` for `%H` / `%M`. -/
def pad2 (n : ℤ) : String :=
  if n < 10 then "0" ++ toString n else toString n

/-- Protobuf message `Done` (from `state.pb.h`, reconstructed from its uses):
a finished interval with formatted start/end times and a duration.
Proto3 default construction gives empty strings and a zero duration. -/
structure Done where
  start_time : String
  end_time : String
  duration_seconds : ℚ
deriving DecidableEq

/-- Default-constructed `Done` (proto3 scalar defaults). -/
def Done.default : Done :=
  { start_time := "", end_time := "", duration_seconds := 0 }

/-- `Timer` from src/time_utils.h: an optional monotonic start instant. -/
structure Timer where
  start : Option ℚ
deriving DecidableEq

/-- `Timer::kTimeAcceleration` (src/time_utils.h): elapsed-time multiplier,
set to 100 for testing. -/
def Timer.kTimeAcceleration : ℚ := 100

/-- `Timer::Start()`: record the current monotonic instant. -/
def Timer.Start (_t : Timer) (now : ℚ) : Timer :=
  { start := some now }

/-- `Timer::ElapsedSeconds()`: `(now - start) * kTimeAcceleration`, or 0 when
never started. -/
def Timer.ElapsedSeconds (t : Timer) (now : ℚ) : ℚ :=
  match t.start with
  | none => 0
  | some s => (now - s) * Timer.kTimeAcceleration

/-- `Timer::Reset()`: clear the start instant. -/
def Timer.Reset (_t : Timer) : Timer :=
  { start := none }

/-- `PomodoroTimer::FormatTime` (src/time_utils.h): format a wall-clock
instant as "%H:%M".  `localtime` is modelled as UTC; `to_time_t` truncates
to whole seconds. -/
def PomodoroTimer.FormatTime (t : ℚ) : String :=
  pad2 (⌊t⌋ / 3600 % 24) ++ ":" ++ pad2 (⌊t⌋ % 3600 / 60)

/-- `PomodoroTimer` from src/time_utils.h. -/
structure PomodoroTimer where
  timer : Timer
  target_duration_seconds : ℚ
  has_rung : Bool
  start : Option ℚ
deriving DecidableEq

/-- `PomodoroTimer::Start(target_duration)`: set the target, clear the rung
flag, record the wall-clock start, start the inner timer. -/
def PomodoroTimer.Start (pt : PomodoroTimer) (target_duration : ℚ)
    (nowEpoch now : ℚ) : PomodoroTimer :=
  { pt with
    target_duration_seconds := target_duration
    has_rung := false
    start := some nowEpoch
    timer := pt.timer.Start now }

/-- `PomodoroTimer::Stop()`: when never started, return a default `Done` and
leave the state untouched; otherwise return the formatted start/end times and
the elapsed duration, clearing the start instant and resetting the timer. -/
def PomodoroTimer.Stop (pt : PomodoroTimer) (nowEpoch now : ℚ) :
    Done × PomodoroTimer :=
  match pt.start with
  | none => (Done.default, pt)
  | some s =>
    ({ start_time := PomodoroTimer.FormatTime s
       end_time := PomodoroTimer.FormatTime nowEpoch
       duration_seconds := pt.timer.ElapsedSeconds now },
     { pt with start := none, timer := pt.timer.Reset })

/-- `PomodoroTimer::active()`. -/
def PomodoroTimer.active (pt : PomodoroTimer) : Bool :=
  pt.start.isSome

/-- `PomodoroTimer::ElapsedSeconds()`. -/
def PomodoroTimer.ElapsedSeconds (pt : PomodoroTimer) (now : ℚ) : ℚ :=
  pt.timer.ElapsedSeconds now

/-- `PomodoroTimer::ElapsedFraction()`: the raw ratio `elapsed / target`,
with no clamping. -/
def PomodoroTimer.ElapsedFraction (pt : PomodoroTimer) (now : ℚ) : ℚ :=
  pt.timer.ElapsedSeconds now / pt.target_duration_seconds

/-- `PomodoroTimer::RemainingSeconds()`: `max(0, target - elapsed)`. -/
def PomodoroTimer.RemainingSeconds (pt : PomodoroTimer) (now : ℚ) : ℚ :=
  max 0 (pt.target_duration_seconds - pt.timer.ElapsedSeconds now)

/-- `PomodoroTimer::OvertimeSeconds()`: `max(0, elapsed - target)`. -/
def PomodoroTimer.OvertimeSeconds (pt : PomodoroTimer) (now : ℚ) : ℚ :=
  max 0 (pt.timer.ElapsedSeconds now - pt.target_duration_seconds)

/-- `PomodoroTimer::IsRinging()`: edge-triggered; returns the ring flag and
the updated state (setting `has_rung` on the first ring). -/
def PomodoroTimer.IsRinging (pt : PomodoroTimer) (now : ℚ) :
    Bool × PomodoroTimer :=
  if pt.has_rung then (false, pt)
  else if pt.target_duration_seconds ≤ pt.ElapsedSeconds now then
    (true, { pt with has_rung := true })
  else (false, pt)

/-- The results of successive `IsRinging()` calls made at the instants `ts`,
threading the mutated `has_rung` flag through. -/
def PomodoroTimer.ringSequence (pt : PomodoroTimer) (ts : List ℚ) :
    List Bool :=
  match ts with
  | [] => []
  | t :: rest => ((pt.IsRinging t).1) :: ((pt.IsRinging t).2).ringSequence rest

/-- `kTimeAcceleration` from src/main.cc (line 17): set to 1 in the current
source (the 100x variant is commented out). -/
def kTimeAcceleration : ℚ := 1

/-- `kWorkPhaseSeconds` from src/main.cc: 25 minutes. -/
def kWorkPhaseSeconds : ℚ := 25 * 60

/-- `kShortBreakSeconds` from src/main.cc: 5 minutes. -/
def kShortBreakSeconds : ℚ := 5 * 60

/-- `kLongBreakSeconds` from src/main.cc: 15 minutes. -/
def kLongBreakSeconds : ℚ := 15 * 60

/-- `unix_timestamp(offset_seconds)` from src/main.cc: seconds since the
epoch of `now - offset`, with `lround` applied to the offset, the
`duration_cast` truncating toward zero and the result stored in a
`uint64_t` (wrapping modulo 2^64). -/
def unix_timestamp (nowEpoch : ℚ) (offset_seconds : ℚ) : ℕ :=
  ((cxxTrunc (nowEpoch - (lround offset_seconds : ℚ))) % (2 ^ 64)).toNat

/-- `Pomodoro::Phase` from src/main.cc: a finished work block. -/
structure Pomodoro.Phase where
  length_seconds : ℤ
  start_timestamp : ℕ
deriving DecidableEq

/-- `Pomodoro::State` from src/main.cc. -/
inductive Pomodoro.State where
  | WORKING
  | WORK_DONE
  | PAUSE
  | PAUSE_DONE
deriving DecidableEq

/-- The `Pomodoro` class from src/main.cc (the ncurses window handle is
omitted: it is only used for drawing). -/
structure Pomodoro where
  phases : List Pomodoro.Phase
  state : Pomodoro.State
  target_time : ℚ
  elapsed_time : ℚ
  last_update : ℚ
  pomodoros_done : ℤ
deriving DecidableEq

/-- `Pomodoro::FinishWork()` from src/main.cc: only in `WORK_DONE`,
increment the pomodoro counter and append the finished phase. -/
def Pomodoro.FinishWork (p : Pomodoro) (nowEpoch : ℚ) : Pomodoro :=
  if p.state ≠ Pomodoro.State.WORK_DONE then p
  else
    { p with
      pomodoros_done := p.pomodoros_done + 1
      phases := p.phases ++
        [{ length_seconds := lround p.elapsed_time
           start_timestamp := unix_timestamp nowEpoch p.elapsed_time }] }

/-- `Pomodoro::Start()` from src/main.cc: no-op while running; from
`WORK_DONE` finalize the work block and start a break (long after the 4th
pomodoro, short otherwise); from `PAUSE_DONE` start a work block. -/
def Pomodoro.Start (p : Pomodoro) (nowEpoch now : ℚ) : Pomodoro :=
  match p.state with
  | Pomodoro.State.WORKING => p
  | Pomodoro.State.PAUSE => p
  | Pomodoro.State.WORK_DONE =>
    let p1 := p.FinishWork nowEpoch
    let p2 := { p1 with state := Pomodoro.State.PAUSE }
    let p3 :=
      if (4 : ℤ) ≤ p2.pomodoros_done then
        { p2 with pomodoros_done := 0, target_time := kLongBreakSeconds }
      else
        { p2 with target_time := kShortBreakSeconds }
    { p3 with elapsed_time := 0, last_update := now }
  | Pomodoro.State.PAUSE_DONE =>
    { p with
      state := Pomodoro.State.WORKING
      target_time := kWorkPhaseSeconds
      elapsed_time := 0
      last_update := now }

/-- `Pomodoro::Reset()` from src/main.cc. -/
def Pomodoro.Reset (p : Pomodoro) : Pomodoro :=
  match p.state with
  | Pomodoro.State.PAUSE_DONE => p
  | Pomodoro.State.WORK_DONE =>
    { p with
      state := Pomodoro.State.PAUSE_DONE
      elapsed_time := kShortBreakSeconds
      target_time := kShortBreakSeconds }
  | Pomodoro.State.WORKING =>
    { p with
      state := Pomodoro.State.PAUSE_DONE
      elapsed_time := kShortBreakSeconds
      target_time := kShortBreakSeconds }
  | Pomodoro.State.PAUSE =>
    { p with
      state := Pomodoro.State.WORK_DONE
      elapsed_time := kWorkPhaseSeconds
      target_time := kWorkPhaseSeconds }

/-- `Pomodoro::Tick()` from src/main.cc: advance elapsed time in `WORKING`,
`WORK_DONE` and `PAUSE` (not `PAUSE_DONE`); then, in `WORKING`/`PAUSE` with
the target reached, `beep()` (the returned Bool) and move to the Done
state. -/
def Pomodoro.Tick (p : Pomodoro) (now : ℚ) : Bool × Pomodoro :=
  let p1 :=
    if p.state = Pomodoro.State.WORKING ∨ p.state = Pomodoro.State.WORK_DONE ∨
        p.state = Pomodoro.State.PAUSE then
      { p with
        elapsed_time := p.elapsed_time + (now - p.last_update) * kTimeAcceleration
        last_update := now }
    else p
  if (p1.state = Pomodoro.State.WORKING ∨ p1.state = Pomodoro.State.PAUSE) ∧
      p1.target_time ≤ p1.elapsed_time then
    (true,
     { p1 with
       state :=
         if p1.state = Pomodoro.State.WORKING then Pomodoro.State.WORK_DONE
         else Pomodoro.State.PAUSE_DONE })
  else (false, p1)

/-- Fold `Tick` over a list of monotonic instants, discarding the beeps. -/
def Pomodoro.Ticks (p : Pomodoro) (ts : List ℚ) : Pomodoro :=
  ts.foldl (fun q t => (q.Tick t).2) p

/-- The bar-length computation at the top of `Pomodoro::Draw()`
(src/main.cc lines 147-152): `elapsed / target * COLS` truncated to int,
clamped to at most `COLS`, at least 1, and forced to the full `COLS` in the
two Done states. -/
def Pomodoro.DrawBarLength (p : Pomodoro) (COLS : ℤ) : ℤ :=
  let bar0 := cxxTrunc (p.elapsed_time / p.target_time * COLS)
  let bar1 := min bar0 COLS
  let bar2 := max bar1 1
  if p.state = Pomodoro.State.WORK_DONE ∨ p.state = Pomodoro.State.PAUSE_DONE
  then COLS
  else bar2

/-- `State::Todo` from src/state.h. -/
structure State.Todo where
  done : Bool
  text : String
deriving DecidableEq

/-- The `history` submessage of `StateProto` (reconstructed from its uses in
src/state.cc: a `day` string and repeated `Done`). -/
structure HistoryProto where
  day : String
  done : List Done
deriving DecidableEq

/-- `StateProto` from `state.pb.h` (reconstructed from its uses in
src/state.cc: repeated string `todo` and a `history` submessage). -/
structure StateProto where
  todo : List String
  history : HistoryProto
deriving DecidableEq

/-- The `State` class from src/state.h. -/
structure State where
  day : String
  todos : List State.Todo
  history : List Done
deriving DecidableEq

/-- `State::AddTodo` from src/state.h: push a not-done item at the back. -/
def State.AddTodo (s : State) (text : String) : State :=
  { s with todos := s.todos ++ [{ done := false, text := text }] }

/-- `State::AddTodoFront` from src/state.h. -/
def State.AddTodoFront (s : State) (text : String) : State :=
  { s with todos := { done := false, text := text } :: s.todos }

/-- The `int` index converted to the unsigned `size_t` of `todos_.size()`
for the comparison `index >= todos_.size()` (sign extension then wrap
modulo 2^64). -/
def toSizeT (index : ℤ) : ℕ :=
  (index % (2 ^ 64)).toNat

/-- `State::ToggleTodo(index)` from src/state.h: no-op when the converted
index is not below the size, otherwise flip the item's `done` flag. -/
def State.ToggleTodo (s : State) (index : ℤ) : State :=
  if s.todos.length ≤ toSizeT index then s
  else
    { s with
      todos :=
        s.todos.set (toSizeT index)
          (let t := s.todos.getD (toSizeT index) { done := false, text := "" }
           { done := !t.done, text := t.text }) }

/-- `State::DeleteTodo(index)` from src/state.h: no-op when the converted
index is not below the size, otherwise erase the item. -/
def State.DeleteTodo (s : State) (index : ℤ) : State :=
  if s.todos.length ≤ toSizeT index then s
  else { s with todos := s.todos.eraseIdx (toSizeT index) }

/-- The `State(const StateProto&)` constructor from src/state.cc: take the
day from the history submessage, add each serialized todo as a not-done
item, insert a default item when the list would be empty, and copy the
history records. -/
def State.ofProto (proto : StateProto) : State :=
  let s0 : State := { day := proto.history.day, todos := [], history := [] }
  let s1 := proto.todo.foldl (fun s t => s.AddTodo t) s0
  let s2 := if s1.todos.isEmpty then s1.AddTodo "Make TODO list" else s1
  { s2 with history := proto.history.done }

/-- `State::ToProto()` from src/state.cc: serialize the day, the text of
every todo that is not done, and the whole history. -/
def State.ToProto (s : State) : StateProto :=
  { todo := (s.todos.filter (fun t => !t.done)).map (fun t => t.text)
    history := { day := s.day, done := s.history } }

/-! Helper lemmas. -/

lemma ringSequence_rung_getD (pt : PomodoroTimer) (ts : List ℚ) (i : ℕ)
    (h : pt.has_rung = true) :
    (pt.ringSequence ts).getD i false = false := by
  induction ts generalizing pt i with
  | nil => simp [PomodoroTimer.ringSequence]
  | cons t rest ih =>
    have hfirst : pt.IsRinging t = (false, pt) := by
      simp [PomodoroTimer.IsRinging, h]
    cases i with
    | zero => simp [PomodoroTimer.ringSequence, hfirst]
    | succ k =>
      simp only [PomodoroTimer.ringSequence, hfirst, List.getD_cons_succ]
      exact ih pt k h

lemma ringSequence_getD_iff (pt : PomodoroTimer) (ts : List ℚ) (i : ℕ)
    (h : pt.has_rung = false) :
    ((pt.ringSequence ts).getD i false = true ↔
      (i < ts.length ∧
       pt.target_duration_seconds ≤ pt.ElapsedSeconds (ts.getD i 0) ∧
       ∀ j, j < i →
         pt.ElapsedSeconds (ts.getD j 0) < pt.target_duration_seconds)) := by
  induction ts generalizing pt i with
  | nil => simp [PomodoroTimer.ringSequence]
  | cons t rest ih =>
    by_cases hring : pt.target_duration_seconds ≤ pt.ElapsedSeconds t
    · have hfirst : pt.IsRinging t = (true, { pt with has_rung := true }) := by
        simp [PomodoroTimer.IsRinging, h, hring]
      cases i with
      | zero =>
        simp [PomodoroTimer.ringSequence, hfirst, hring]
      | succ k =>
        constructor
        · intro hc
          exfalso
          simp only [PomodoroTimer.ringSequence, hfirst, List.getD_cons_succ] at hc
          rw [ringSequence_rung_getD _ rest k rfl] at hc
          exact Bool.false_ne_true hc
        · rintro ⟨hlen, hle, hall⟩
          exfalso
          have h0 := hall 0 (Nat.succ_pos k)
          simp only [List.getD_cons_zero] at h0
          exact absurd hring (not_le.mpr h0)
    · have hfirst : pt.IsRinging t = (false, pt) := by
        simp [PomodoroTimer.IsRinging, h, hring]
      cases i with
      | zero =>
        simp [PomodoroTimer.ringSequence, hfirst, hring]
      | succ k =>
        have hstep : (pt.ringSequence (t :: rest)).getD (k + 1) false =
            (pt.ringSequence rest).getD k false := by
          simp [PomodoroTimer.ringSequence, hfirst]
        rw [hstep, ih pt k h]
        have ht : pt.ElapsedSeconds t < pt.target_duration_seconds :=
          not_le.mp hring
        constructor
        · rintro ⟨hlen, hle, hall⟩
          refine ⟨Nat.succ_lt_succ hlen, by simpa using hle, ?_⟩
          intro j hj
          cases j with
          | zero => simpa using ht
          | succ m => simpa using hall m (Nat.lt_of_succ_lt_succ hj)
        · rintro ⟨hlen, hle, hall⟩
          refine ⟨Nat.lt_of_succ_lt_succ hlen, by simpa using hle, ?_⟩
          intro j hj
          simpa using hall (j + 1) (Nat.succ_lt_succ hj)

/-- C1: after `PomodoroTimer::Start(target)` with `target > 0`, the `has_rung`
flag is cleared, and in any sequence of `IsRinging()` calls the call at
position `i` returns `true` exactly when the elapsed time at that call has
reached the target and every earlier call was still below the target; every
other call (earlier or later) returns `false`. -/
theorem isRinging_fires_exactly_once (pt0 : PomodoroTimer) (target w m : ℚ)
    (htgt : 0 < target) (ts : List ℚ) (i : ℕ) :
    (pt0.Start target w m).has_rung = false ∧
    (((pt0.Start target w m).ringSequence ts).getD i false = true ↔
      (i < ts.length ∧
       target ≤ (pt0.Start target w m).ElapsedSeconds (ts.getD i 0) ∧
       ∀ j, j < i →
         (pt0.Start target w m).ElapsedSeconds (ts.getD j 0) < target)) := by
  exact ⟨rfl, ringSequence_getD_iff (pt0.Start target w m) ts i rfl⟩

/-- Witness for C1: with target 10, timer started at instant 0 and calls at
instants 1/20, 1/10, 1/5 (elapsed 5, 10, 20 after the 100x acceleration),
the second call (index 1) is the single ringing one. -/
theorem isRinging_fires_exactly_once_witness :
    (((PomodoroTimer.mk ⟨none⟩ 0 false none).Start 10 0 0).ringSequence
        [1/20, 1/10, 1/5]).getD 1 false = true := by
  have h := isRinging_fires_exactly_once (PomodoroTimer.mk ⟨none⟩ 0 false none)
      10 0 0 (by norm_num) [1/20, 1/10, 1/5] 1
  refine h.2.mpr ⟨by norm_num, ?_, ?_⟩
  · norm_num [PomodoroTimer.Start, PomodoroTimer.ElapsedSeconds, Timer.Start,
      Timer.ElapsedSeconds, Timer.kTimeAcceleration]
  · intro j hj
    interval_cases j
    norm_num [PomodoroTimer.Start, PomodoroTimer.ElapsedSeconds, Timer.Start,
      Timer.ElapsedSeconds, Timer.kTimeAcceleration]

/-- C7: `RemainingSeconds()` is `max(0, target - elapsed)` and
`OvertimeSeconds()` is `max(0, elapsed - target)` for every timer state;
moreover, after `Start(target)` with `target > 0`, at any instant where the
elapsed time is `t` with `0 ≤ t < target`, `RemainingSeconds()` equals
`target - t`, overtime is zero, and `IsRinging()` returns `false`. -/
theorem remaining_overtime_spec (pt0 : PomodoroTimer) (target w m now t : ℚ)
    (htgt : 0 < target) (ht0 : 0 ≤ t) (htlt : t < target)
    (he : (pt0.Start target w m).ElapsedSeconds now = t) :
    (∀ (q : PomodoroTimer) (n : ℚ),
        q.RemainingSeconds n =
          max 0 (q.target_duration_seconds - q.ElapsedSeconds n) ∧
        q.OvertimeSeconds n =
          max 0 (q.ElapsedSeconds n - q.target_duration_seconds)) ∧
    (pt0.Start target w m).RemainingSeconds now = target - t ∧
    (pt0.Start target w m).OvertimeSeconds now = 0 ∧
    ((pt0.Start target w m).IsRinging now).1 = false := by
  have hfields : (pt0.Start target w m).target_duration_seconds = target := rfl
  have hrung : (pt0.Start target w m).has_rung = false := rfl
  refine ⟨fun q n => ⟨rfl, rfl⟩, ?_, ?_, ?_⟩
  · unfold PomodoroTimer.RemainingSeconds
    rw [hfields, show (pt0.Start target w m).timer.ElapsedSeconds now = t from he]
    exact max_eq_right (by linarith)
  · unfold PomodoroTimer.OvertimeSeconds
    rw [hfields, show (pt0.Start target w m).timer.ElapsedSeconds now = t from he]
    exact max_eq_left (by linarith)
  · simp [PomodoroTimer.IsRinging, hrung, hfields, he, not_le.mpr htlt]

/-- Witness for C7: target 10, timer started at instant 0, queried at instant
1/20 (elapsed 5 after the 100x acceleration): 5 seconds remain. -/
theorem remaining_overtime_spec_witness :
    ((PomodoroTimer.mk ⟨none⟩ 0 false none).Start 10 0 0).RemainingSeconds (1/20)
      = 5 := by
  have h := remaining_overtime_spec (PomodoroTimer.mk ⟨none⟩ 0 false none)
      10 0 0 (1/20) 5 (by norm_num) (by norm_num) (by norm_num)
      (by norm_num [PomodoroTimer.Start, PomodoroTimer.ElapsedSeconds, Timer.Start,
        Timer.ElapsedSeconds, Timer.kTimeAcceleration])
  rw [h.2.1]
  norm_num

/-- C8: `Stop()` with no recorded start instant returns the
default-constructed (zero/empty) `Done` and leaves the timer state untouched;
with a recorded start instant it returns the formatted start and end times
together with the elapsed duration, and clears both the start instant and the
inner timer. -/
theorem stop_defensive_noop (pt : PomodoroTimer) (w m : ℚ) :
    (pt.start = none → pt.Stop w m = (Done.default, pt)) ∧
    (∀ s, pt.start = some s →
      (pt.Stop w m).1 =
        { start_time := PomodoroTimer.FormatTime s,
          end_time := PomodoroTimer.FormatTime w,
          duration_seconds := pt.ElapsedSeconds m } ∧
      (pt.Stop w m).2 = { pt with start := none, timer := { start := none } }) := by
  constructor
  · intro h
    simp [PomodoroTimer.Stop, h]
  · intro s h
    refine ⟨?_, ?_⟩ <;>
      simp [PomodoroTimer.Stop, h, PomodoroTimer.ElapsedSeconds, Timer.Reset]

/-- Witness for C8: a timer whose inner timer started at instant 0 and whose
wall start was recorded at 100, stopped at monotonic instant 3/5, reports an
elapsed duration of 60 accelerated seconds. -/
theorem stop_defensive_noop_witness :
    ((PomodoroTimer.mk ⟨some 0⟩ 10 false (some 100)).Stop 160 (3/5)).1.duration_seconds
      = 60 := by
  have h := stop_defensive_noop (PomodoroTimer.mk ⟨some 0⟩ 10 false (some 100)) 160 (3/5)
  rw [(h.2 100 rfl).1]
  norm_num [PomodoroTimer.ElapsedSeconds, Timer.ElapsedSeconds, Timer.kTimeAcceleration]

/-- Counterexample for C5: a running countdown (target 10, started at instant
0, still active) has `ElapsedFraction() = 2` at instant 1/5 (elapsed 20), so
the fraction returned by `PomodoroTimer::ElapsedFraction` is not confined to
`[0, 1]` while running. -/
theorem elapsedFraction_exceeds_one :
    ((PomodoroTimer.mk ⟨none⟩ 0 false none).Start 10 0 0).active = true ∧
    ((PomodoroTimer.mk ⟨none⟩ 0 false none).Start 10 0 0).ElapsedFraction (1/5)
      = 2 ∧
    ¬ ((PomodoroTimer.mk ⟨none⟩ 0 false none).Start 10 0 0).ElapsedFraction (1/5)
      ≤ 1 := by
  refine ⟨rfl, ?_, ?_⟩ <;>
    norm_num [PomodoroTimer.Start, PomodoroTimer.ElapsedFraction, Timer.Start,
      Timer.ElapsedSeconds, Timer.kTimeAcceleration]

/-- C5 (amended): the clamping lives in `Pomodoro::Draw`, not in
`ElapsedFraction`: for any machine state and any terminal width
`COLS ≥ 1`, the drawn bar length lies in `[1, COLS]` — so the displayed
fill fraction `bar/COLS` lies in `[0, 1]` — and in the `WORK_DONE` /
`PAUSE_DONE` states the bar is forced to the full width `COLS` (displayed
fraction exactly 1) no matter how much overtime accumulated. -/
theorem drawBarLength_clamped (p : Pomodoro) (COLS : ℤ) (hC : 1 ≤ COLS) :
    (1 ≤ p.DrawBarLength COLS ∧ p.DrawBarLength COLS ≤ COLS ∧
     (0 : ℚ) ≤ (p.DrawBarLength COLS : ℚ) / (COLS : ℚ) ∧
     (p.DrawBarLength COLS : ℚ) / (COLS : ℚ) ≤ 1) ∧
    ((p.state = Pomodoro.State.WORK_DONE ∨ p.state = Pomodoro.State.PAUSE_DONE) →
      p.DrawBarLength COLS = COLS) := by
  have hCQ : (0 : ℚ) < (COLS : ℚ) := by exact_mod_cast lt_of_lt_of_le one_pos hC
  have hb : 1 ≤ p.DrawBarLength COLS ∧ p.DrawBarLength COLS ≤ COLS := by
    unfold Pomodoro.DrawBarLength
    split
    · exact ⟨hC, le_refl COLS⟩
    · exact ⟨le_max_right _ 1, max_le (min_le_right _ _) hC⟩
  refine ⟨⟨hb.1, hb.2, ?_, ?_⟩, ?_⟩
  · apply div_nonneg _ (le_of_lt hCQ)
    exact_mod_cast le_trans zero_le_one (by exact_mod_cast hb.1)
  · rw [div_le_one hCQ]
    exact_mod_cast hb.2
  · intro h
    unfold Pomodoro.DrawBarLength
    simp [h]

/-- Witness for C5 (amended): a `WORK_DONE` state with heavy overtime
(elapsed 9999 against target 1500) still draws the full 80-column bar. -/
theorem drawBarLength_clamped_witness :
    (Pomodoro.mk [] Pomodoro.State.WORK_DONE 1500 9999 0 0).DrawBarLength 80
      = 80 := by
  exact (drawBarLength_clamped
    (Pomodoro.mk [] Pomodoro.State.WORK_DONE 1500 9999 0 0) 80 (by norm_num)).2
    (Or.inl rfl)

/-- Counterexample for C6: in `PAUSE_DONE` (elapsed 300, last update at 0), a
`Tick()` at instant 5 does not advance the elapsed time at all — `Tick` only
accumulates time in `WORKING`, `WORK_DONE` and `PAUSE`, so the claim that
`PauseDone` ticks keep advancing the overtime display is false. -/
theorem tick_pause_done_does_not_advance :
    ((Pomodoro.mk [] Pomodoro.State.PAUSE_DONE 300 300 0 0).Tick 5).2.elapsed_time
      = 300 ∧
    ((Pomodoro.mk [] Pomodoro.State.PAUSE_DONE 300 300 0 0).Tick 5).2.elapsed_time
      ≠ 300 + (5 - 0) * kTimeAcceleration := by
  constructor
  · simp [Pomodoro.Tick]
  · simp [Pomodoro.Tick, kTimeAcceleration]

/-- C6 (amended): in `WORK_DONE` every `Tick()` still advances the elapsed
time (overtime keeps growing) but never beeps and never changes the state; in
`PAUSE_DONE` a `Tick()` is a complete no-op — it neither advances elapsed
time nor beeps nor transitions. Ringing therefore cannot re-fire in either
Done state. -/
theorem tick_in_done_states (p : Pomodoro) (now : ℚ) :
    (p.state = Pomodoro.State.WORK_DONE →
      p.Tick now = (false,
        { p with
          elapsed_time := p.elapsed_time + (now - p.last_update) * kTimeAcceleration,
          last_update := now })) ∧
    (p.state = Pomodoro.State.PAUSE_DONE → p.Tick now = (false, p)) := by
  constructor
  · intro h
    simp [Pomodoro.Tick, h]
  · intro h
    simp [Pomodoro.Tick, h]

/-- Witness for C6 (amended): a `WORK_DONE` state with elapsed 1600 ticked at
instant 7 advances to 1607 without a beep. -/
theorem tick_in_done_states_witness :
    ((Pomodoro.mk [] Pomodoro.State.WORK_DONE 1500 1600 0 0).Tick 7).1 = false ∧
    ((Pomodoro.mk [] Pomodoro.State.WORK_DONE 1500 1600 0 0).Tick 7).2.elapsed_time
      = 1607 := by
  have h := (tick_in_done_states
    (Pomodoro.mk [] Pomodoro.State.WORK_DONE 1500 1600 0 0) 7).1 rfl
  rw [h]
  norm_num [kTimeAcceleration]

lemma tick_preserves_log (p : Pomodoro) (now : ℚ) :
    ((p.Tick now).2).phases = p.phases ∧
    ((p.Tick now).2).pomodoros_done = p.pomodoros_done := by
  constructor <;>
  · unfold Pomodoro.Tick
    dsimp only
    split <;> split <;> rfl

lemma ticks_preserves_log (p : Pomodoro) (ts : List ℚ) :
    (p.Ticks ts).phases = p.phases ∧
    (p.Ticks ts).pomodoros_done = p.pomodoros_done := by
  induction ts generalizing p with
  | nil => exact ⟨rfl, rfl⟩
  | cons t rest ih =>
    have h1 := tick_preserves_log p t
    have h2 := ih ((p.Tick t).2)
    exact ⟨h2.1.trans h1.1, h2.2.trans h1.2⟩

lemma start_from_pause_done_preserves_log (p : Pomodoro)
    (h : p.state = Pomodoro.State.PAUSE_DONE) (nowEpoch now : ℚ) :
    (p.Start nowEpoch now).phases = p.phases ∧
    (p.Start nowEpoch now).pomodoros_done = p.pomodoros_done := by
  obtain ⟨phs, st, tt, et, lu, pd⟩ := p
  subst h
  exact ⟨rfl, rfl⟩

lemma reset_work_done_fields (q : Pomodoro)
    (h : q.state = Pomodoro.State.WORK_DONE) :
    q.Reset.state = Pomodoro.State.PAUSE_DONE ∧
    q.Reset.pomodoros_done = q.pomodoros_done ∧
    q.Reset.phases = q.phases := by
  obtain ⟨phs, st, tt, et, lu, pd⟩ := q
  subst h
  exact ⟨rfl, rfl, rfl⟩

/-- C2: calling `Start()` in `WORK_DONE` moves to `PAUSE`, appends exactly one
finished work block (rounded elapsed length, timestamped start), and
increments `pomodoros_done` by one; when the incremented counter reaches 4
it is reset to 0 and the break target is the long break (900s), otherwise the
target is the short break (300s). -/
theorem start_from_work_done (p : Pomodoro)
    (h : p.state = Pomodoro.State.WORK_DONE) (nowEpoch now : ℚ) :
    (p.Start nowEpoch now).state = Pomodoro.State.PAUSE ∧
    (p.Start nowEpoch now).phases = p.phases ++
      [{ length_seconds := lround p.elapsed_time,
         start_timestamp := unix_timestamp nowEpoch p.elapsed_time }] ∧
    ((4 : ℤ) ≤ p.pomodoros_done + 1 →
      (p.Start nowEpoch now).pomodoros_done = 0 ∧
      (p.Start nowEpoch now).target_time = 900) ∧
    (p.pomodoros_done + 1 < 4 →
      (p.Start nowEpoch now).pomodoros_done = p.pomodoros_done + 1 ∧
      (p.Start nowEpoch now).target_time = 300) := by
  by_cases hc : (4 : ℤ) ≤ p.pomodoros_done + 1
  · refine ⟨?_, ?_, fun _ => ⟨?_, ?_⟩, fun hlt => absurd hc (by omega)⟩ <;>
      simp [Pomodoro.Start, Pomodoro.FinishWork, h, hc, kLongBreakSeconds] <;>
      norm_num
  · refine ⟨?_, ?_, fun hge => absurd hge hc, fun _ => ⟨?_, ?_⟩⟩ <;>
      simp [Pomodoro.Start, Pomodoro.FinishWork, h, hc, kShortBreakSeconds] <;>
      norm_num

/-- Witness for C2: from `WORK_DONE` with 3 pomodoros already done and
elapsed 1500, `Start()` at epoch instant 10000 yields the long break target
900, a reset counter, and the single appended block. -/
theorem start_from_work_done_witness :
    ((Pomodoro.mk [] Pomodoro.State.WORK_DONE 300 1500 0 3).Start 10000 0).state
      = Pomodoro.State.PAUSE ∧
    ((Pomodoro.mk [] Pomodoro.State.WORK_DONE 300 1500 0 3).Start 10000 0).pomodoros_done
      = 0 ∧
    ((Pomodoro.mk [] Pomodoro.State.WORK_DONE 300 1500 0 3).Start 10000 0).target_time
      = 900 ∧
    ((Pomodoro.mk [] Pomodoro.State.WORK_DONE 300 1500 0 3).Start 10000 0).phases
      = [{ length_seconds := 1500, start_timestamp := 8500 }] := by
  have h := start_from_work_done
    (Pomodoro.mk [] Pomodoro.State.WORK_DONE 300 1500 0 3) rfl 10000 0
  have h4 := h.2.2.1 (by norm_num)
  refine ⟨h.1, h4.1, h4.2, ?_⟩
  rw [h.2.1]
  have hl : lround (1500 : ℚ) = 1500 := by norm_num [lround]
  have hu : unix_timestamp 10000 1500 = 8500 := by
    norm_num [unix_timestamp, cxxTrunc, lround]
    decide
  simp [hl, hu]

/-- C3: for a work phase begun by `Start()` from `PAUSE_DONE` and ticked
arbitrarily (in particular past the target, so the run ended in `WORK_DONE`),
calling `Reset()` yields `PAUSE_DONE` with `pomodoros_done` equal to its
value from before the work phase began and with the phase history unchanged
(no interval appended): in this code the pomodoro credit is only granted by
the `Start()` that leaves `WORK_DONE`, so abandoning the phase with `Reset()`
never leaves a stray credit behind. -/
theorem reset_from_work_done_restores (p0 : Pomodoro)
    (h0 : p0.state = Pomodoro.State.PAUSE_DONE) (nowEpoch now : ℚ)
    (ts : List ℚ)
    (hw : ((p0.Start nowEpoch now).Ticks ts).state = Pomodoro.State.WORK_DONE) :
    (((p0.Start nowEpoch now).Ticks ts).Reset).state = Pomodoro.State.PAUSE_DONE ∧
    (((p0.Start nowEpoch now).Ticks ts).Reset).pomodoros_done = p0.pomodoros_done ∧
    (((p0.Start nowEpoch now).Ticks ts).Reset).phases = p0.phases := by
  have hstart := start_from_pause_done_preserves_log p0 h0 nowEpoch now
  have hticks := ticks_preserves_log (p0.Start nowEpoch now) ts
  have hreset := reset_work_done_fields ((p0.Start nowEpoch now).Ticks ts) hw
  exact ⟨hreset.1,
    hreset.2.1.trans (hticks.2.trans hstart.2),
    hreset.2.2.trans (hticks.1.trans hstart.1)⟩

/-- Witness for C3: starting work from `PAUSE_DONE` with 2 pomodoros done,
ticking once to instant 1600 (overtime past the 1500s target, state
`WORK_DONE`), then `Reset()`: the machine is back in `PAUSE_DONE` with the
counter still 2 and no phase recorded. -/
theorem reset_from_work_done_restores_witness :
    ((((Pomodoro.mk [] Pomodoro.State.PAUSE_DONE 0 0 0 2).Start 0 0).Ticks
        [1600]).Reset).pomodoros_done = 2 := by
  have h := reset_from_work_done_restores
    (Pomodoro.mk [] Pomodoro.State.PAUSE_DONE 0 0 0 2) rfl 0 0 [1600]
    (by
      simp [Pomodoro.Start, Pomodoro.Ticks, Pomodoro.Tick, kTimeAcceleration,
        kWorkPhaseSeconds]
      norm_num)
  exact h.2.1

/-- C9: from `PAUSE`, `Reset()` jumps to `WORK_DONE` with both the elapsed
time and the target set to the full 1500s work-phase duration, so an
immediately following `Start()` credits another pomodoro (here: below the
long-break threshold, the counter goes up by one) and appends another work
block of exactly 1500 seconds, although no work phase was actually run. -/
theorem reset_from_pause_double_credits (p : Pomodoro)
    (h : p.state = Pomodoro.State.PAUSE) (hn : p.pomodoros_done + 1 < 4)
    (nowEpoch now : ℚ) :
    (p.Reset).state = Pomodoro.State.WORK_DONE ∧
    (p.Reset).elapsed_time = kWorkPhaseSeconds ∧
    (p.Reset).target_time = kWorkPhaseSeconds ∧
    ((p.Reset).Start nowEpoch now).state = Pomodoro.State.PAUSE ∧
    ((p.Reset).Start nowEpoch now).pomodoros_done = p.pomodoros_done + 1 ∧
    ((p.Reset).Start nowEpoch now).phases = p.phases ++
      [{ length_seconds := 1500,
         start_timestamp := unix_timestamp nowEpoch 1500 }] := by
  obtain ⟨phs, st, tt, et, lu, pd⟩ := p
  subst h
  simp only at hn
  have hnc : ¬ ((4 : ℤ) ≤ pd + 1) := by omega
  have hl : lround (1500 : ℚ) = 1500 := by norm_num [lround]
  have hw : (kWorkPhaseSeconds : ℚ) = 1500 := by norm_num [kWorkPhaseSeconds]
  refine ⟨?_, ?_, ?_, ?_, ?_, ?_⟩ <;>
    simp [Pomodoro.Reset, Pomodoro.Start, Pomodoro.FinishWork, hnc, hl, hw]

/-- Witness for C9: in `PAUSE` with 1 pomodoro done, `Reset()` then `Start()`
(epoch instant 100000) yields counter 2 and a phantom 1500s work block. -/
theorem reset_from_pause_double_credits_witness :
    (((Pomodoro.mk [] Pomodoro.State.PAUSE 300 100 0 1).Reset).Start 100000 0).pomodoros_done
      = 2 ∧
    (((Pomodoro.mk [] Pomodoro.State.PAUSE 300 100 0 1).Reset).Start 100000 0).phases
      = [{ length_seconds := 1500, start_timestamp := 98500 }] := by
  have h := reset_from_pause_double_credits
    (Pomodoro.mk [] Pomodoro.State.PAUSE 300 100 0 1) rfl (by norm_num) 100000 0
  refine ⟨by rw [h.2.2.2.2.1]; norm_num, ?_⟩
  rw [h.2.2.2.2.2]
  have hu : unix_timestamp 100000 1500 = 98500 := by
    norm_num [unix_timestamp, cxxTrunc, lround]
    decide
  simp [hu]

/-- C10: for any `int` index outside `[0, todos.size())` — including every
negative index, which the signed-to-unsigned conversion in
`index >= todos_.size()` maps above the size — `ToggleTodo` and `DeleteTodo`
leave the todo list (and the whole session state) unchanged.  The bounds
reflect a 32-bit `int` index and a vector comfortably smaller than the
wrapped negatives. -/
theorem todo_index_out_of_range_noop (s : State) (index : ℤ)
    (hlo : -(2 ^ 31) ≤ index) (hhi : index < 2 ^ 31)
    (hlen : s.todos.length ≤ 2 ^ 32)
    (hout : index < 0 ∨ (s.todos.length : ℤ) ≤ index) :
    s.ToggleTodo index = s ∧ s.DeleteTodo index = s := by
  have h64 : (2 : ℤ) ^ 64 = 18446744073709551616 := by norm_num
  have h31 : (2 : ℤ) ^ 31 = 2147483648 := by norm_num
  have h32 : (2 : ℕ) ^ 32 = 4294967296 := by norm_num
  have hguard : s.todos.length ≤ toSizeT index := by
    unfold toSizeT
    rw [h64] at *
    rw [h31] at *
    rw [h32] at *
    omega
  constructor <;> simp [State.ToggleTodo, State.DeleteTodo, hguard]

/-- Witness for C10: toggling or deleting at index -1 on a one-item list
changes nothing. -/
theorem todo_index_out_of_range_noop_witness :
    State.ToggleTodo ⟨"d", [⟨false, "a"⟩], []⟩ (-1) = ⟨"d", [⟨false, "a"⟩], []⟩ := by
  exact (todo_index_out_of_range_noop ⟨"d", [⟨false, "a"⟩], []⟩ (-1)
    (by norm_num) (by norm_num) (by norm_num) (Or.inl (by norm_num))).1

/-- Counterexample for C4: a state holding one completed todo does not
survive the round trip — `ToProto` drops done items, and the constructor
replaces the then-empty list with the default "Make TODO list" entry. -/
theorem toProto_roundtrip_fails :
    (State.ofProto (State.ToProto
        { day := "2024-01-01", todos := [{ done := true, text := "write spec" }],
          history := [] })).todos
      = [{ done := false, text := "Make TODO list" }] ∧
    State.ofProto (State.ToProto
        { day := "2024-01-01", todos := [{ done := true, text := "write spec" }],
          history := [] })
      ≠ { day := "2024-01-01", todos := [{ done := true, text := "write spec" }],
          history := [] } := by
  constructor
  · simp [State.ofProto, State.ToProto, State.AddTodo]
  · simp [State.ofProto, State.ToProto, State.AddTodo]

lemma foldl_addTodo (s : State) (l : List String) :
    l.foldl (fun acc t => acc.AddTodo t) s =
      { s with todos := s.todos ++ l.map (fun t => { done := false, text := t }) } := by
  induction l generalizing s with
  | nil => simp
  | cons a as ih =>
    rw [List.foldl_cons, ih]
    simp [State.AddTodo]

lemma ofProto_eq (proto : StateProto) :
    State.ofProto proto =
      { day := proto.history.day,
        todos :=
          if proto.todo.isEmpty then [{ done := false, text := "Make TODO list" }]
          else proto.todo.map (fun t => { done := false, text := t }),
        history := proto.history.done } := by
  simp only [State.ofProto, foldl_addTodo]
  rcases proto with ⟨todo, hist⟩
  cases todo with
  | nil => simp [State.AddTodo]
  | cons a as => simp [State.AddTodo]

lemma map_text_roundtrip (l : List State.Todo) (h : ∀ t ∈ l, t.done = false) :
    (l.map (fun t => t.text)).map
        (fun x => ({ done := false, text := x } : State.Todo)) = l := by
  induction l with
  | nil => rfl
  | cons a as ih =>
    have ha : a.done = false := h a (List.mem_cons_self a as)
    have htail := ih (fun t ht => h t (List.mem_cons_of_mem a ht))
    obtain ⟨ad, atx⟩ := a
    simp only at ha
    subst ha
    simp [htail]

/-- C4 (amended): the `ToProto` / constructor round trip preserves the day
and the interval history exactly; the todo list is preserved exactly when it
is non-empty and no item is marked done (then every item round-trips with its
text and its `done = false` flag).  Completed items are dropped by `ToProto`,
and an empty serialized list is replaced by the default "Make TODO list"
entry on load. -/
theorem toProto_roundtrip_amended (s : State) :
    (State.ofProto s.ToProto).day = s.day ∧
    (State.ofProto s.ToProto).history = s.history ∧
    (s.todos ≠ [] → (∀ t ∈ s.todos, t.done = false) →
      State.ofProto s.ToProto = s) := by
  refine ⟨?_, ?_, ?_⟩
  · rw [ofProto_eq]
    rfl
  · rw [ofProto_eq]
    rfl
  · intro hne hall
    rw [ofProto_eq]
    have hfilter : s.todos.filter (fun t => !t.done) = s.todos := by
      rw [List.filter_eq_self]
      intro t ht
      simp [hall t ht]
    have hproto : (s.ToProto).todo = s.todos.map (fun t => t.text) := by
      simp [State.ToProto, hfilter]
    have hempty : (s.ToProto).todo.isEmpty = false := by
      rw [hproto]
      cases hs : s.todos with
      | nil => exact absurd hs hne
      | cons a as => simp
    rcases s with ⟨d, ts, hist⟩
    simp only [State.mk.injEq]
    refine ⟨rfl, ?_, rfl⟩
    rw [hempty]
    simp only [Bool.false_eq_true, if_false]
    rw [hproto]
    exact map_text_roundtrip ts hall

/-- Witness for C4 (amended): a non-empty all-pending todo list round-trips
exactly. -/
theorem toProto_roundtrip_amended_witness :
    State.ofProto (State.ToProto
        { day := "2024-01-02", todos := [{ done := false, text := "a" }],
          history := [{ start_time := "08:00", end_time := "08:25",
                        duration_seconds := 1500 }] })
      = { day := "2024-01-02", todos := [{ done := false, text := "a" }],
          history := [{ start_time := "08:00", end_time := "08:25",
                        duration_seconds := 1500 }] } := by
  exact (toProto_roundtrip_amended
    { day := "2024-01-02", todos := [{ done := false, text := "a" }],
      history := [{ start_time := "08:00", end_time := "08:25",
                    duration_seconds := 1500 }] }).2.2
    (by simp) (by simp)
